import Mathlib

set_option maxRecDepth 100000

/-!
# Verification of the `include_url_macro` fetch–validate–cache core

A shallow embedding of the crate's core pipeline (`src/lib.rs`):
URL validation (`fetch_url_content`), cache-key derivation and the
content-addressed store (`cached_url_content`), the compression codec
selection, and the structured-payload validator (`include_json_url`).

Bytes are modelled as `List Nat` (each element a value `< 256` wherever the
source produces one).  The network transport, the filesystem write outcome and
the `CARGO_PKG_NAME` environment lookup are explicit parameters, so that the
pure control flow of the source is preserved and every claim about "no network
access" or "no partial cache entry" becomes a statement about those parameters
and the returned call count / cache state.
-/

namespace IncludeUrl

/-- Byte strings, as in `bytes::Bytes` / `&[u8]` on the Rust side. -/
abbrev Bytes := List Nat

/-! ## SHA-256 (the `sha2::Sha256` digest used for cache keys)

A direct executable implementation of FIPS 180-4 SHA-256 over byte lists,
with 32-bit words represented as `Nat` reduced modulo `2^32`. -/

/-- The word modulus `2^32`. -/
def M32 : Nat := 4294967296

/-- 32-bit addition. -/
def add32 (a b : Nat) : Nat := (a + b) % M32

/-- Bitwise xor (stays below `2^32` for inputs below `2^32`). -/
def xor32 (a b : Nat) : Nat := Nat.xor a b

/-- Bitwise and. -/
def and32 (a b : Nat) : Nat := Nat.land a b

/-- Bitwise complement within 32 bits. -/
def not32 (a : Nat) : Nat := Nat.xor a (M32 - 1)

/-- Right rotation of a 32-bit word by `n` places. -/
def rotr32 (n x : Nat) : Nat := ((x >>> n) + ((x % (2 ^ n)) <<< (32 - n))) % M32

/-- Logical right shift. -/
def shr32 (n x : Nat) : Nat := x >>> n

/-- Message-schedule function σ₀. -/
def ssig0 (x : Nat) : Nat := xor32 (xor32 (rotr32 7 x) (rotr32 18 x)) (shr32 3 x)

/-- Message-schedule function σ₁. -/
def ssig1 (x : Nat) : Nat := xor32 (xor32 (rotr32 17 x) (rotr32 19 x)) (shr32 10 x)

/-- Round function Σ₀. -/
def bsig0 (x : Nat) : Nat := xor32 (xor32 (rotr32 2 x) (rotr32 13 x)) (rotr32 22 x)

/-- Round function Σ₁. -/
def bsig1 (x : Nat) : Nat := xor32 (xor32 (rotr32 6 x) (rotr32 11 x)) (rotr32 25 x)

/-- Choice function. -/
def ch (x y z : Nat) : Nat := xor32 (and32 x y) (and32 (not32 x) z)

/-- Majority function. -/
def maj (x y z : Nat) : Nat := xor32 (xor32 (and32 x y) (and32 x z)) (and32 y z)

/-- The 64 SHA-256 round constants. -/
def K256 : List Nat :=
  [1116352408, 1899447441, 3049323471, 3921009573, 961987163, 1508970993,
   2453635748, 2870763221, 3624381080, 310598401, 607225278, 1426881987,
   1925078388, 2162078206, 2614888103, 3248222580, 3835390401, 4022224774,
   264347078, 604807628, 770255983, 1249150122, 1555081692, 1996064986,
   2554220882, 2821834349, 2952996808, 3210313671, 3336571891, 3584528711,
   113926993, 338241895, 666307205, 773529912, 1294757372, 1396182291,
   1695183700, 1986661051, 2177026350, 2456956037, 2730485921, 2820302411,
   3259730800, 3345764771, 3516065817, 3600352804, 4094571909, 275423344,
   430227734, 506948616, 659060556, 883997877, 958139571, 1322822218,
   1537002063, 1747873779, 1955562222, 2024104815, 2227730452, 2361852424,
   2428436474, 2756734187, 3204031479, 3329325298]

/-- The initial hash state. -/
def H256 : List Nat :=
  [1779033703, 3144134277, 1013904242, 2773480762,
   1359893119, 2600822924, 528734635, 1541459225]

/-- Extend the 16-word message block: run `n` extension rounds, with `acc`
holding the words produced so far in reverse order. -/
def extendRounds : List Nat → Nat → List Nat
  | acc, 0 => acc
  | acc, n + 1 =>
      let wt := add32 (add32 (ssig1 (acc.getD 1 0)) (acc.getD 6 0))
                      (add32 (ssig0 (acc.getD 14 0)) (acc.getD 15 0))
      extendRounds (wt :: acc) n

/-- The full 64-word message schedule of a 16-word block. -/
def schedule64 (block : List Nat) : List Nat :=
  (extendRounds block.reverse 48).reverse

/-- The 64 compression rounds: `st` is `[a, b, c, d, e, f, g, h]`. -/
def rounds : List Nat → List Nat → List Nat → List Nat
  | st, k :: ks, w :: ws =>
      let a := st.getD 0 0
      let b := st.getD 1 0
      let c := st.getD 2 0
      let d := st.getD 3 0
      let e := st.getD 4 0
      let f := st.getD 5 0
      let g := st.getD 6 0
      let h := st.getD 7 0
      let t1 := add32 h (add32 (bsig1 e) (add32 (ch e f g) (add32 k w)))
      let t2 := add32 (bsig0 a) (maj a b c)
      rounds [add32 t1 t2, a, b, c, add32 d t1, e, f, g] ks ws
  | st, _, _ => st

/-- Process one 16-word block into the running hash state. -/
def processBlock (h : List Nat) (block : List Nat) : List Nat :=
  List.zipWith add32 h (rounds h K256 (schedule64 block))

/-- Big-endian 8-byte encoding of a length (in bits). -/
def be64 (n : Nat) : Bytes :=
  [(n >>> 56) % 256, (n >>> 48) % 256, (n >>> 40) % 256, (n >>> 32) % 256,
   (n >>> 24) % 256, (n >>> 16) % 256, (n >>> 8) % 256, n % 256]

/-- SHA-256 padding: `0x80`, zeros to 56 mod 64, then the 64-bit bit length. -/
def padMessage (msg : Bytes) : Bytes :=
  msg ++ [128] ++ List.replicate ((119 - msg.length % 64) % 64) 0
      ++ be64 (msg.length * 8)

/-- Group bytes into big-endian 32-bit words. -/
def toWords : Bytes → List Nat
  | a :: b :: c :: d :: rest => (((a * 256 + b) * 256 + c) * 256 + d) :: toWords rest
  | _ => []

/-- Chunk a word list into 16-word blocks (a padded message always splits
exactly; a short remainder would be dropped). -/
def toBlocks : List Nat → List (List Nat)
  | a0 :: a1 :: a2 :: a3 :: a4 :: a5 :: a6 :: a7 ::
    a8 :: a9 :: a10 :: a11 :: a12 :: a13 :: a14 :: a15 :: rest =>
      [a0, a1, a2, a3, a4, a5, a6, a7,
       a8, a9, a10, a11, a12, a13, a14, a15] :: toBlocks rest
  | _ => []

/-- Word-to-bytes, big-endian. -/
def wordBytes (w : Nat) : Bytes :=
  [(w >>> 24) % 256, (w >>> 16) % 256, (w >>> 8) % 256, w % 256]

/-- SHA-256 of a byte string, as the 32-byte digest. -/
def sha256 (msg : Bytes) : Bytes :=
  ((toBlocks (toWords (padMessage msg))).foldl processBlock H256).foldr
    (fun w acc => wordBytes w ++ acc) []

/-! ## Hex encoding (`format!("\x7b:x\x7d", hash)` on the digest) -/

/-- One lowercase hex digit. -/
def hexDigit (n : Nat) : Char :=
  if n < 10 then Char.ofNat (48 + n) else Char.ofNat (87 + n)

/-- Two lowercase hex digits of one byte. -/
def hexByte (b : Nat) : List Char := [hexDigit (b / 16), hexDigit (b % 16)]

/-- Lowercase hex string of a byte string. -/
def hexOfBytes (bs : Bytes) : String :=
  String.mk (bs.foldr (fun b acc => hexByte b ++ acc) [])

/-! ## UTF-8 encoding (`str::as_bytes` on the Rust side) -/

/-- UTF-8 encoding of one Unicode scalar value. -/
def utf8EncodeScalar (c : Nat) : Bytes :=
  if c < 128 then [c]
  else if c < 2048 then [192 + c / 64, 128 + c % 64]
  else if c < 65536 then [224 + c / 4096, 128 + (c / 64) % 64, 128 + c % 64]
  else [240 + c / 262144, 128 + (c / 4096) % 64, 128 + (c / 64) % 64, 128 + c % 64]

/-- The UTF-8 bytes of a string, as `str::as_bytes` yields them. -/
def strBytes (s : String) : Bytes :=
  s.data.foldr (fun c acc => utf8EncodeScalar c.toNat ++ acc) []

/-! ## The incremental hasher (`sha2::Sha256::new` / `update` / `finalize`)

The `sha2` streaming interface is modelled by accumulating the fed bytes;
`finalize` digests the accumulated input. -/

/-- The streaming hasher state: the bytes fed so far. -/
structure Hasher where
  buf : Bytes
deriving DecidableEq

/-- Fresh hasher, as `Sha256::new()`. -/
def Hasher.new : Hasher := ⟨[]⟩

/-- Feed bytes, as `hasher.update(..)`. -/
def Hasher.update (h : Hasher) (b : Bytes) : Hasher := ⟨h.buf ++ b⟩

/-- Finish, as `hasher.finalize()`. -/
def Hasher.finalize (h : Hasher) : Bytes := sha256 h.buf

/-! ## Compression kind and the cache key (`cached_url_content`, lines 98–108) -/

/-- The `CompressKind` enumeration of `src/lib.rs`. -/
inductive CompressKind where
  | None
  | Brotli
deriving DecidableEq

/-- The derived `Debug` representation, as `format!("\x7b:?\x7d", compress_kind)`
produces it. -/
def CompressKind.debugRepr : CompressKind → String
  | .None => "None"
  | .Brotli => "Brotli"

/-- The crate-name fallback of line 98–99:
`tracked_env::var("CARGO_PKG_NAME").unwrap_or_else(|_| "unknown".into())`. -/
def resolveCrateName (envVal : Option String) : String :=
  envVal.getD "unknown"

/-- The exact byte sequence fed to the hasher for a cache key:
namespace bytes, a NUL separator, URL bytes, a NUL separator, and the
`Debug` representation of the compression kind. -/
def cacheKeyInput (nsBytes urlBytes : Bytes) (kind : CompressKind) : Bytes :=
  nsBytes ++ [0] ++ urlBytes ++ [0] ++ strBytes kind.debugRepr

/-- The cache filename of `cached_url_content` lines 100–107: the incremental
SHA-256 over the five `update` calls, hex-encoded lowercase. -/
def cacheFileName (crateName urlStr : String) (kind : CompressKind) : String :=
  let h := Hasher.new
  let h := h.update (strBytes crateName)
  let h := h.update [0]
  let h := h.update (strBytes urlStr)
  let h := h.update [0]
  let h := h.update (strBytes kind.debugRepr)
  hexOfBytes h.finalize

/-! ## URL validation and fetch (`fetch_url_content`, lines 59–79)

The `url::Url` parser is modelled at the fidelity the pipeline consumes: an
absolute URL is a string starting with a scheme — an ASCII alphabetic
character followed by alphanumerics or `+`/`-`/`.` — terminated by `:`; the
parsed scheme is ASCII-lowercased as `Url::parse` does.  A string with no such
scheme prefix fails to parse (the `relative URL without a base` error).  The
network transport (`reqwest::blocking::Client`) is an explicit parameter; the
second component of the result counts transport invocations. -/

/-- Decidable equality for `Except`, so concrete pipeline runs can be checked
by `decide`. -/
instance {ε α : Type} [DecidableEq ε] [DecidableEq α] :
    DecidableEq (Except ε α) := fun
  | .error a, .error b =>
      if h : a = b then .isTrue (by rw [h])
      else .isFalse (by intro hh; cases hh; exact h rfl)
  | .error _, .ok _ => .isFalse (by intro h; cases h)
  | .ok _, .error _ => .isFalse (by intro h; cases h)
  | .ok a, .ok b =>
      if h : a = b then .isTrue (by rw [h])
      else .isFalse (by intro hh; cases hh; exact h rfl)

/-- A parsed URL, reduced to what `fetch_url_content` consumes. -/
structure ParsedUrl where
  scheme : String
  rest : String
deriving DecidableEq

/-- Scheme characters after the first: ASCII alphanumeric or `+`, `-`, `.`. -/
def isSchemeChar (c : Char) : Bool :=
  c.isAlpha || c.isDigit || c = '+' || c = '-' || c = '.'

/-- Scan for the `:`-terminated scheme; `acc` holds the scheme so far,
reversed. -/
def schemeScan (acc : List Char) : List Char → Option (List Char × List Char)
  | [] => Option.none
  | c :: cs =>
      if c = ':' then Option.some (acc.reverse, cs)
      else if isSchemeChar c then schemeScan (c :: acc) cs
      else Option.none

/-- Split a candidate URL into scheme and remainder, or fail. -/
def splitScheme : List Char → Option (List Char × List Char)
  | [] => Option.none
  | c :: cs => if c.isAlpha then schemeScan [c] cs else Option.none

/-- The modelled `Url::parse`: either a parsed URL with a lowercased scheme,
or a parse-error message. -/
def parseUrl (s : String) : Except String ParsedUrl :=
  match splitScheme s.data with
  | Option.none => Except.error "relative URL without a base"
  | Option.some (sch, rest) =>
      Except.ok ⟨String.mk (sch.map Char.toLower), String.mk rest⟩

/-- `fetch_url_content`: validate the URL, reject non-HTTP(S) schemes, then
invoke the transport `net` once.  Returns the result paired with the number of
transport invocations performed. -/
def fetchUrlContent (net : ParsedUrl → Except String Bytes) (urlStr : String) :
    Except String Bytes × Nat :=
  match parseUrl urlStr with
  | Except.error e => (Except.error ("Invalid URL: " ++ e), 0)
  | Except.ok u =>
      if u.scheme ≠ "http" ∧ u.scheme ≠ "https" then
        (Except.error "Only HTTP and HTTPS URLs are supported", 0)
      else
        match net u with
        | Except.error e => (Except.error ("Failed to fetch URL: " ++ e), 1)
        | Except.ok body => (Except.ok body, 1)

/-! ## The compression codec (lines 115–131) -/

/-- Run-length scan: the state carries the pending `(byte, count)` run, with
`count` kept in `1..255` so it fits one output byte. -/
def rleEncodeAux : Option (Nat × Nat) → Bytes → Bytes
  | Option.none, [] => []
  | Option.some (b, n), [] => [n, b]
  | Option.none, c :: cs => rleEncodeAux (Option.some (c, 1)) cs
  | Option.some (b, n), c :: cs =>
      if c = b ∧ n < 255 then rleEncodeAux (Option.some (b, n + 1)) cs
      else n :: b :: rleEncodeAux (Option.some (c, 1)) cs

/-- Modelled from the spec: the Brotli encoder
(`brotli::CompressorWriter::new(&mut buffer, 4096, 11, 22)` of lines 118–129),
whose implementation lives outside this repository.  The spec requires only a
lossless byte-sequence transform whose consumer-side decode inverts it for
every input, including empty and non-UTF-8 bodies; it is modelled here as an
executable run-length code emitting `(count, byte)` pairs with runs capped at
255 bytes. -/
def rleEncode (l : Bytes) : Bytes := rleEncodeAux Option.none l

/-- Modelled from the spec: the consumer-side Brotli decode
(`brotli::Decompressor`, outside this repository), inverse of `rleEncode`. -/
def rleDecode : Bytes → Bytes
  | n :: b :: rest => List.replicate n b ++ rleDecode rest
  | _ => []

/-- The codec-selection `match` of lines 115–131: identity for `None`, the
(modelled) Brotli encoder for `Brotli`. -/
def encodeContent (kind : CompressKind) (content : Bytes) : Bytes :=
  match kind with
  | .None => content
  | .Brotli => rleEncode content

/-! ## The content-addressed store (`cached_url_content`, lines 89–143)

The cache root directory is modelled as an association list from filename to
file content; `create_dir_all` on the cache root (lines 94–97) always succeeds
in the model and touches no per-key state.  The outcome of the persist step is
an explicit parameter: `OpenOptions::open` with `create(true).truncate(true)`
either fails (leaving no file), or creates/truncates the file, after which
`write_all` either writes everything or fails after a prefix of the bytes. -/

/-- The files under the cache root: filename ↦ content. -/
structure CacheState where
  entries : List (String × Bytes)
deriving DecidableEq

/-- First-match association lookup. -/
def lookupList : List (String × Bytes) → String → Option Bytes
  | [], _ => Option.none
  | (k', v) :: rest, k => if k' = k then Option.some v else lookupList rest k

/-- Does a file with this name exist, and with what content? -/
def CacheState.lookup (st : CacheState) (k : String) : Option Bytes :=
  lookupList st.entries k

/-- Create-or-truncate plus write: the file now holds exactly `v`. -/
def CacheState.set (st : CacheState) (k : String) (v : Bytes) : CacheState :=
  ⟨(k, v) :: st.entries⟩

/-- Outcome of the persist step (lines 133–141) for one call. -/
inductive WriteOutcome where
  /-- `open` succeeds and `write_all` writes the full content. -/
  | success
  /-- `open` itself fails with this cause; no file is created. -/
  | openFail (msg : String)
  /-- `open` succeeds (creating/truncating the file) and `write_all` fails
  with this cause after `written` bytes reached the file. -/
  | writeFail (written : Nat) (msg : String)
deriving DecidableEq

/-- `cached_url_content`: derive the key, short-circuit on an existing entry,
otherwise fetch, encode, and persist.  Returns the `Result`, the cache state
after the call, and the number of transport invocations performed. -/
def cachedUrlContent (net : ParsedUrl → Except String Bytes)
    (pkgName : Option String) (wr : WriteOutcome) (outDir : String)
    (urlStr : String) (kind : CompressKind) (st : CacheState) :
    Except String String × CacheState × Nat :=
  let crateName := resolveCrateName pkgName
  let filename := cacheFileName crateName urlStr kind
  let cacheFile := outDir ++ "/" ++ filename
  if (st.lookup filename).isSome then
    (Except.ok cacheFile, st, 0)
  else
    match fetchUrlContent net urlStr with
    | (Except.error e, n) => (Except.error e, st, n)
    | (Except.ok content, n) =>
        let encoded := encodeContent kind content
        match wr with
        | .openFail msg =>
            (Except.error ("Failed to open cache file: " ++ msg), st, n)
        | .writeFail written msg =>
            (Except.error ("Failed to write cache file: " ++ msg),
             st.set filename (encoded.take written), n)
        | .success => (Except.ok cacheFile, st.set filename encoded, n)

/-! ## UTF-8 decoding (`fs::read_to_string`, line 280)

`read_to_string` fails unless the file's bytes are valid UTF-8; the decoder
below follows the Rust standard library's validation: continuation bytes in
`0x80..0xBF`, no overlong forms, no surrogate code points, nothing above
`U+10FFFF`.  Text is represented as the list of decoded Unicode scalar
values. -/

/-- Is this byte a UTF-8 continuation byte? -/
def isCont (b : Nat) : Bool := 128 ≤ b && b < 192

/-- Decode UTF-8 bytes to Unicode scalar values, or fail as
`read_to_string` does on invalid UTF-8. -/
def utf8Decode : Bytes → Option (List Nat)
  | [] => Option.some []
  | b :: rest =>
      if b < 128 then (utf8Decode rest).map (b :: ·)
      else if b < 192 then Option.none
      else if b < 224 then
        match rest with
        | b1 :: rest' =>
            if isCont b1 then
              let c := (b - 192) * 64 + (b1 - 128)
              if c < 128 then Option.none else (utf8Decode rest').map (c :: ·)
            else Option.none
        | _ => Option.none
      else if b < 240 then
        match rest with
        | b1 :: b2 :: rest' =>
            if isCont b1 && isCont b2 then
              let c := (b - 224) * 4096 + (b1 - 128) * 64 + (b2 - 128)
              if c < 2048 || (55296 ≤ c && c < 57344) then Option.none
              else (utf8Decode rest').map (c :: ·)
            else Option.none
        | _ => Option.none
      else if b < 245 then
        match rest with
        | b1 :: b2 :: b3 :: rest' =>
            if isCont b1 && isCont b2 && isCont b3 then
              let c := (b - 240) * 262144 + (b1 - 128) * 4096
                       + (b2 - 128) * 64 + (b3 - 128)
              if c < 65536 || 1114111 < c then Option.none
              else (utf8Decode rest').map (c :: ·)
            else Option.none
        | _ => Option.none
      else Option.none

/-! ## JSON validation (`serde_json::from_str::<serde_json::Value>`, line 290)

An executable recursive-descent syntax checker over Unicode scalar values,
following the JSON grammar `serde_json` accepts: `null`/`true`/`false`,
numbers, strings with the standard escapes, arrays and objects; leading and
trailing whitespace allowed, trailing garbage rejected.  The parser is
fuel-indexed for termination; `jsonValid` supplies fuel ample for any
input. -/

/-- JSON whitespace: space, tab, line feed, carriage return. -/
def isJsonWs (c : Nat) : Bool := c = 32 || c = 9 || c = 10 || c = 13

/-- Drop leading JSON whitespace. -/
def skipWs : List Nat → List Nat
  | c :: cs => if isJsonWs c then skipWs cs else c :: cs
  | [] => []

/-- ASCII decimal digit? -/
def isDig (c : Nat) : Bool := 48 ≤ c && c ≤ 57

/-- ASCII hex digit? -/
def isHexDig (c : Nat) : Bool :=
  isDig c || (97 ≤ c && c ≤ 102) || (65 ≤ c && c ≤ 70)

/-- Consume the remainder of a JSON string after the opening quote. -/
def parseStringRest : List Nat → Option (List Nat)
  | [] => Option.none
  | c :: cs =>
      if c = 34 then Option.some cs
      else if c = 92 then
        match cs with
        | [] => Option.none
        | e :: cs' =>
            if e = 34 || e = 92 || e = 47 || e = 98 || e = 102
                || e = 110 || e = 114 || e = 116 then parseStringRest cs'
            else if e = 117 then
              match cs' with
              | h1 :: h2 :: h3 :: h4 :: cs2 =>
                  if isHexDig h1 && isHexDig h2 && isHexDig h3 && isHexDig h4
                  then parseStringRest cs2 else Option.none
              | _ => Option.none
            else Option.none
      else if c < 32 then Option.none
      else parseStringRest cs

/-- Consume the fraction/exponent tail of a number after its integer part. -/
def parseNumTail (s : List Nat) : Option (List Nat) :=
  let afterFrac :=
    match s with
    | 46 :: r =>
        match r with
        | d :: _ => if isDig d then Option.some (r.dropWhile isDig) else Option.none
        | [] => Option.none
    | _ => Option.some s
  match afterFrac with
  | Option.none => Option.none
  | Option.some s1 =>
      match s1 with
      | e :: r =>
          if e = 101 || e = 69 then
            let r1 := match r with
                      | sg :: r' => if sg = 43 || sg = 45 then r' else r
                      | [] => r
            match r1 with
            | d :: _ => if isDig d then Option.some (r1.dropWhile isDig)
                        else Option.none
            | [] => Option.none
          else Option.some s1
      | [] => Option.some s1

/-- Consume a JSON number (the input starts at `-` or a digit). -/
def parseNumber (s : List Nat) : Option (List Nat) :=
  let s0 := match s with
            | 45 :: r => r
            | _ => s
  match s0 with
  | c :: r =>
      if c = 48 then parseNumTail r
      else if isDig c then parseNumTail (r.dropWhile isDig)
      else Option.none
  | [] => Option.none

mutual

/-- Consume one JSON value (input starts at a non-whitespace character). -/
def parseVal : Nat → List Nat → Option (List Nat)
  | 0, _ => Option.none
  | fuel + 1, s =>
      match s with
      | [] => Option.none
      | c :: cs =>
          if c = 110 then
            match cs with
            | 117 :: 108 :: 108 :: r => Option.some r
            | _ => Option.none
          else if c = 116 then
            match cs with
            | 114 :: 117 :: 101 :: r => Option.some r
            | _ => Option.none
          else if c = 102 then
            match cs with
            | 97 :: 108 :: 115 :: 101 :: r => Option.some r
            | _ => Option.none
          else if c = 34 then parseStringRest cs
          else if c = 91 then
            match skipWs cs with
            | 93 :: r => Option.some r
            | s1 => parseElems fuel s1
          else if c = 123 then
            match skipWs cs with
            | 125 :: r => Option.some r
            | s1 => parseMembers fuel s1
          else if c = 45 || isDig c then parseNumber (c :: cs)
          else Option.none

/-- Consume the elements of a non-empty array up to the closing bracket. -/
def parseElems : Nat → List Nat → Option (List Nat)
  | 0, _ => Option.none
  | fuel + 1, s =>
      match parseVal fuel s with
      | Option.none => Option.none
      | Option.some r =>
          match skipWs r with
          | 44 :: r2 => parseElems fuel (skipWs r2)
          | 93 :: r2 => Option.some r2
          | _ => Option.none

/-- Consume the members of a non-empty object up to the closing brace. -/
def parseMembers : Nat → List Nat → Option (List Nat)
  | 0, _ => Option.none
  | fuel + 1, s =>
      match s with
      | 34 :: r =>
          match parseStringRest r with
          | Option.none => Option.none
          | Option.some r1 =>
              match skipWs r1 with
              | 58 :: r2 =>
                  match parseVal fuel (skipWs r2) with
                  | Option.none => Option.none
                  | Option.some r3 =>
                      match skipWs r3 with
                      | 44 :: r4 => parseMembers fuel (skipWs r4)
                      | 125 :: r4 => Option.some r4
                      | _ => Option.none
              | _ => Option.none
      | _ => Option.none

end

/-- Is this text a single well-formed JSON document? -/
def jsonValid (s : List Nat) : Bool :=
  match parseVal (2 * s.length + 8) (skipWs s) with
  | Option.some r => (skipWs r).isEmpty
  | Option.none => false

/-! ## The structured call site (`include_json_url`, lines 274–322)

The emitted token stream is modelled by its shape: a compile error carrying
the error message, or an emitted expression carrying the raw cached text
verbatim — `emitTyped content ty` stands for the emitted block that re-parses
`content` against the target type `ty` at expansion-consumer level, and
`emitValue content` for the untyped block re-parsing it as a generic value. -/

/-- The shape of the token stream `include_json_url` produces. -/
inductive MacroOutput where
  /-- A `compile_error!` carrying the message. -/
  | compileError (msg : String)
  /-- The typed block: raw content, re-parsed against `ty` downstream. -/
  | emitTyped (content : List Nat) (ty : String)
  /-- The untyped block: raw content, re-parsed as a generic value. -/
  | emitValue (content : List Nat)
deriving DecidableEq

/-- The `read_to_string` failure message for non-UTF-8 cache content. -/
def utf8FailMsg : String :=
  "Failed to open cache file: stream did not contain valid UTF-8"

/-- The compile-error message for cache content that is not valid JSON. -/
def invalidJsonMsg : String := "Invalid JSON content from URL: expected value"

/-- Lines 280–316 of `include_json_url`: read the cached file as UTF-8 text,
validate it as generic JSON, and on success emit the raw content onward. -/
def includeJsonFromCache (cacheBytes : Bytes) (ty : Option String) :
    MacroOutput :=
  match utf8Decode cacheBytes with
  | Option.none => MacroOutput.compileError utf8FailMsg
  | Option.some content =>
      if jsonValid content then
        match ty with
        | Option.some t => MacroOutput.emitTyped content t
        | Option.none => MacroOutput.emitValue content
      else MacroOutput.compileError invalidJsonMsg

/-- The whole `include_json_url` expansion: run the store with
`CompressKind::None`, then hand the cached file's bytes to the structured
validator. -/
def includeJsonUrl (net : ParsedUrl → Except String Bytes)
    (pkgName : Option String) (wr : WriteOutcome) (outDir : String)
    (urlStr : String) (ty : Option String) (st : CacheState) :
    MacroOutput × CacheState × Nat :=
  match cachedUrlContent net pkgName wr outDir urlStr CompressKind.None st with
  | (Except.error e, st', n) => (MacroOutput.compileError e, st', n)
  | (Except.ok _, st', n) =>
      let filename := cacheFileName (resolveCrateName pkgName) urlStr .None
      let bytes := (st'.lookup filename).getD []
      (includeJsonFromCache bytes ty, st', n)

/-! ## Concrete transport stubs for witness instantiations -/

/-- A transport returning the body `"hi"`. -/
def netHello : ParsedUrl → Except String Bytes := fun _ => Except.ok [104, 105]

/-- A transport that always fails. -/
def netFail : ParsedUrl → Except String Bytes :=
  fun _ => Except.error "connection refused"

/-! ## Helper lemmas -/

/-- A freshly written file is found by lookup, with exactly its content. -/
theorem lookup_set_self (st : CacheState) (k : String) (v : Bytes) :
    (st.set k v).lookup k = Option.some v := by
  simp [CacheState.set, CacheState.lookup, lookupList]

/-- The store on a hit: the existing path is returned, nothing else happens. -/
theorem cached_hit (net : ParsedUrl → Except String Bytes) (pkg : Option String)
    (wr : WriteOutcome) (outDir urlStr : String) (kind : CompressKind)
    (st : CacheState)
    (h : (st.lookup (cacheFileName (resolveCrateName pkg) urlStr kind)).isSome) :
    cachedUrlContent net pkg wr outDir urlStr kind st
      = (Except.ok (outDir ++ "/" ++ cacheFileName (resolveCrateName pkg) urlStr kind),
         st, 0) := by
  simp [cachedUrlContent, h]

/-- The store on a miss with a failing fetch: the fetch error propagates and
the cache is untouched. -/
theorem cached_miss_fetch_error (net : ParsedUrl → Except String Bytes)
    (pkg : Option String) (wr : WriteOutcome) (outDir urlStr : String)
    (kind : CompressKind) (st : CacheState) (e : String) (n : Nat)
    (hmiss : ¬ (st.lookup (cacheFileName (resolveCrateName pkg) urlStr kind)).isSome)
    (hf : fetchUrlContent net urlStr = (Except.error e, n)) :
    cachedUrlContent net pkg wr outDir urlStr kind st
      = (Except.error e, st, n) := by
  simp [cachedUrlContent, hmiss, hf]

/-- The store on a miss with a successful fetch and persist. -/
theorem cached_miss_success (net : ParsedUrl → Except String Bytes)
    (pkg : Option String) (outDir urlStr : String) (kind : CompressKind)
    (st : CacheState) (content : Bytes) (n : Nat)
    (hmiss : ¬ (st.lookup (cacheFileName (resolveCrateName pkg) urlStr kind)).isSome)
    (hf : fetchUrlContent net urlStr = (Except.ok content, n)) :
    cachedUrlContent net pkg WriteOutcome.success outDir urlStr kind st
      = (Except.ok (outDir ++ "/" ++ cacheFileName (resolveCrateName pkg) urlStr kind),
         st.set (cacheFileName (resolveCrateName pkg) urlStr kind)
           (encodeContent kind content), n) := by
  simp [cachedUrlContent, hmiss, hf]

/-- The store on a miss when opening the cache file fails: error, cache
untouched. -/
theorem cached_miss_open_fail (net : ParsedUrl → Except String Bytes)
    (pkg : Option String) (outDir urlStr : String) (kind : CompressKind)
    (st : CacheState) (content : Bytes) (n : Nat) (msg : String)
    (hmiss : ¬ (st.lookup (cacheFileName (resolveCrateName pkg) urlStr kind)).isSome)
    (hf : fetchUrlContent net urlStr = (Except.ok content, n)) :
    cachedUrlContent net pkg (WriteOutcome.openFail msg) outDir urlStr kind st
      = (Except.error ("Failed to open cache file: " ++ msg), st, n) := by
  simp [cachedUrlContent, hmiss, hf]

/-- The store on a miss when `write_all` fails after `written` bytes: error,
but the created-and-truncated file remains with the written prefix. -/
theorem cached_miss_write_fail (net : ParsedUrl → Except String Bytes)
    (pkg : Option String) (outDir urlStr : String) (kind : CompressKind)
    (st : CacheState) (content : Bytes) (n written : Nat) (msg : String)
    (hmiss : ¬ (st.lookup (cacheFileName (resolveCrateName pkg) urlStr kind)).isSome)
    (hf : fetchUrlContent net urlStr = (Except.ok content, n)) :
    cachedUrlContent net pkg (WriteOutcome.writeFail written msg) outDir urlStr kind st
      = (Except.error ("Failed to write cache file: " ++ msg),
         st.set (cacheFileName (resolveCrateName pkg) urlStr kind)
           ((encodeContent kind content).take written), n) := by
  simp [cachedUrlContent, hmiss, hf]

/-- Any successful store call returns the key-named path under the cache
root. -/
theorem cached_ok_path (net : ParsedUrl → Except String Bytes)
    (pkg : Option String) (wr : WriteOutcome) (outDir urlStr : String)
    (kind : CompressKind) (st : CacheState) (p : String)
    (h : (cachedUrlContent net pkg wr outDir urlStr kind st).1 = Except.ok p) :
    p = outDir ++ "/" ++ cacheFileName (resolveCrateName pkg) urlStr kind := by
  by_cases hhit : (st.lookup (cacheFileName (resolveCrateName pkg) urlStr kind)).isSome
  · rw [cached_hit net pkg wr outDir urlStr kind st hhit] at h
    exact (Except.ok.inj h).symm
  · rcases hf : fetchUrlContent net urlStr with ⟨r, n⟩
    cases r with
    | error e =>
        rw [cached_miss_fetch_error net pkg wr outDir urlStr kind st e n hhit hf] at h
        exact absurd h (by simp)
    | ok content =>
        cases wr with
        | success =>
            rw [cached_miss_success net pkg outDir urlStr kind st content n hhit hf] at h
            exact (Except.ok.inj h).symm
        | openFail msg =>
            rw [cached_miss_open_fail net pkg outDir urlStr kind st content n msg hhit hf] at h
            exact absurd h (by simp)
        | writeFail written msg =>
            rw [cached_miss_write_fail net pkg outDir urlStr kind st content n written msg hhit hf] at h
            exact absurd h (by simp)

/-- Decoding a pending run and then the rest of the stream. -/
theorem rleDecode_aux (l : Bytes) : ∀ (b n : Nat), 1 ≤ n →
    rleDecode (rleEncodeAux (Option.some (b, n)) l) = List.replicate n b ++ l := by
  induction l with
  | nil => intro b n _; simp [rleEncodeAux, rleDecode]
  | cons c cs ih =>
      intro b n hn
      by_cases hc : c = b ∧ n < 255
      · rw [show rleEncodeAux (Option.some (b, n)) (c :: cs)
              = rleEncodeAux (Option.some (b, n + 1)) cs by
            simp [rleEncodeAux, hc]]
        rw [ih b (n + 1) (by omega)]
        rw [List.replicate_succ' n b, hc.1]
        simp
      · rw [show rleEncodeAux (Option.some (b, n)) (c :: cs)
              = n :: b :: rleEncodeAux (Option.some (c, 1)) cs by
            simp [rleEncodeAux, hc]]
        rw [rleDecode, ih c 1 (by omega)]
        simp

/-- The modelled codec round-trips on every byte sequence. -/
theorem rle_roundtrip (l : Bytes) : rleDecode (rleEncode l) = l := by
  cases l with
  | nil => rfl
  | cons c cs =>
      rw [show rleEncode (c :: cs) = rleEncodeAux (Option.some (c, 1)) cs from rfl]
      rw [rleDecode_aux cs c 1 (by omega)]
      simp

/-- Known-answer test: SHA-256 of the empty message. -/
theorem sha256_empty_kat : hexOfBytes (sha256 []) =
    "e3b0c44298fc1c149afbf4c8996fb92427ae41e4649b934ca495991b7852b855" := by
  decide

/-- Known-answer test: SHA-256 of `"abc"`. -/
theorem sha256_abc_kat : hexOfBytes (sha256 (strBytes "abc")) =
    "ba7816bf8f01cfea414140de5dae2223b00361a396177a9cb410ff61f20015ad" := by
  decide

/-! ## The claims -/

/-- C1: after a successful `cached_url_content` call, a second call with the
identical `(namespace, url, encoding)` triple returns the same path, leaves
the cache state (hence the cache file's bytes) unchanged, and performs zero
transport invocations — it returns at the existence check, regardless of what
the second call's transport or write outcome would have been. -/
theorem claim_c1 (net net2 : ParsedUrl → Except String Bytes)
    (pkg : Option String) (wr wr2 : WriteOutcome) (outDir urlStr : String)
    (kind : CompressKind) (st : CacheState) (p : String)
    (h : (cachedUrlContent net pkg wr outDir urlStr kind st).1 = Except.ok p) :
    cachedUrlContent net2 pkg wr2 outDir urlStr kind
        (cachedUrlContent net pkg wr outDir urlStr kind st).2.1
      = (Except.ok p, (cachedUrlContent net pkg wr outDir urlStr kind st).2.1, 0) := by
  have hp := cached_ok_path net pkg wr outDir urlStr kind st p h
  subst hp
  by_cases hhit : (st.lookup (cacheFileName (resolveCrateName pkg) urlStr kind)).isSome
  · rw [cached_hit net pkg wr outDir urlStr kind st hhit]
    exact cached_hit net2 pkg wr2 outDir urlStr kind st hhit
  · rcases hf : fetchUrlContent net urlStr with ⟨r, n⟩
    cases r with
    | error e =>
        rw [cached_miss_fetch_error net pkg wr outDir urlStr kind st e n hhit hf] at h
        simp at h
    | ok content =>
        cases wr with
        | openFail msg =>
            rw [cached_miss_open_fail net pkg outDir urlStr kind st content n msg hhit hf] at h
            simp at h
        | writeFail written msg =>
            rw [cached_miss_write_fail net pkg outDir urlStr kind st content n written msg
                hhit hf] at h
            simp at h
        | success =>
            rw [cached_miss_success net pkg outDir urlStr kind st content n hhit hf]
            have hhit2 : ((st.set (cacheFileName (resolveCrateName pkg) urlStr kind)
                (encodeContent kind content)).lookup
                  (cacheFileName (resolveCrateName pkg) urlStr kind)).isSome := by
              rw [lookup_set_self]; rfl
            exact cached_hit net2 pkg wr2 outDir urlStr kind _ hhit2

/-- C1 witness: a concrete first call (fetching `"hi"`) succeeds, and the
second call — even with a failing transport and a failing write outcome —
returns the same path with the cache untouched and zero transport calls. -/
theorem claim_c1_witness :
    (cachedUrlContent netHello (Option.some "pkg") WriteOutcome.success "out"
        "http://e/x" CompressKind.None (CacheState.mk [])).1
      = Except.ok ("out/" ++ cacheFileName "pkg" "http://e/x" CompressKind.None)
    ∧ cachedUrlContent netFail (Option.some "pkg") (WriteOutcome.openFail "denied")
        "out" "http://e/x" CompressKind.None
        (cachedUrlContent netHello (Option.some "pkg") WriteOutcome.success "out"
          "http://e/x" CompressKind.None (CacheState.mk [])).2.1
      = (Except.ok ("out/" ++ cacheFileName "pkg" "http://e/x" CompressKind.None),
         (cachedUrlContent netHello (Option.some "pkg") WriteOutcome.success "out"
           "http://e/x" CompressKind.None (CacheState.mk [])).2.1, 0) :=
  ⟨by decide,
   claim_c1 netHello netFail (Option.some "pkg") WriteOutcome.success
     (WriteOutcome.openFail "denied") "out" "http://e/x" CompressKind.None
     (CacheState.mk [])
     ("out/" ++ cacheFileName "pkg" "http://e/x" CompressKind.None) (by decide)⟩

/-- C2 counterexample: with a concrete input on which the fetch succeeds but
`write_all` fails having written 0 bytes, the call returns an error, yet a
file for the key (created and truncated by `OpenOptions::open`) exists under
the cache root — a partial cache entry is left behind. -/
theorem claim_c2_counterexample :
    (cachedUrlContent netHello (Option.some "pkg")
        (WriteOutcome.writeFail 0 "disk full") "out" "http://e/x"
        CompressKind.None (CacheState.mk [])).1
      = Except.error "Failed to write cache file: disk full"
    ∧ ((cachedUrlContent netHello (Option.some "pkg")
        (WriteOutcome.writeFail 0 "disk full") "out" "http://e/x"
        CompressKind.None (CacheState.mk [])).2.1).lookup
          (cacheFileName "pkg" "http://e/x" CompressKind.None)
      = Option.some [] := by
  exact ⟨by decide, by decide⟩

/-- C2 (amended): on every failing `cached_url_content` call whose failure is
not in the `write_all` step itself — URL rejected, fetch failed, or opening
the cache file failed — the cache state is unchanged, so no entry for the key
is left behind.  (When `write_all` itself fails, the source has already
created and truncated the key-named file, so a partial entry can remain.) -/
theorem claim_c2 (net : ParsedUrl → Except String Bytes) (pkg : Option String)
    (wr : WriteOutcome) (outDir urlStr : String) (kind : CompressKind)
    (st : CacheState) (e : String)
    (herr : (cachedUrlContent net pkg wr outDir urlStr kind st).1 = Except.error e)
    (hwr : ∀ written msg, wr ≠ WriteOutcome.writeFail written msg) :
    (cachedUrlContent net pkg wr outDir urlStr kind st).2.1 = st := by
  by_cases hhit : (st.lookup (cacheFileName (resolveCrateName pkg) urlStr kind)).isSome
  · rw [cached_hit net pkg wr outDir urlStr kind st hhit] at herr
    simp at herr
  · rcases hf : fetchUrlContent net urlStr with ⟨r, n⟩
    cases r with
    | error e' =>
        rw [cached_miss_fetch_error net pkg wr outDir urlStr kind st e' n hhit hf]
    | ok content =>
        cases wr with
        | openFail msg =>
            rw [cached_miss_open_fail net pkg outDir urlStr kind st content n msg hhit hf]
        | writeFail written msg => exact absurd rfl (hwr written msg)
        | success =>
            rw [cached_miss_success net pkg outDir urlStr kind st content n hhit hf] at herr
            simp at herr

/-- C2 witness: a concrete call whose fetch fails leaves the empty cache
empty. -/
theorem claim_c2_witness :
    (cachedUrlContent netFail (Option.some "pkg") WriteOutcome.success "out"
        "http://e/x" CompressKind.None (CacheState.mk [])).2.1
      = CacheState.mk [] :=
  claim_c2 netFail (Option.some "pkg") WriteOutcome.success "out" "http://e/x"
    CompressKind.None (CacheState.mk [])
    "Failed to fetch URL: connection refused" (by decide)
    (fun _ _ h => WriteOutcome.noConfusion h)

/-- C3: a URL string that does not parse fails with the `Invalid URL` error
and zero transport invocations; one that parses with a scheme other than
`http`/`https` fails with the unsupported-scheme error, likewise before any
network I/O. -/
theorem claim_c3 (s : String) (net : ParsedUrl → Except String Bytes) :
    (∀ e, parseUrl s = Except.error e →
        fetchUrlContent net s = (Except.error ("Invalid URL: " ++ e), 0))
    ∧ ∀ u, parseUrl s = Except.ok u → u.scheme ≠ "http" → u.scheme ≠ "https" →
        fetchUrlContent net s
          = (Except.error "Only HTTP and HTTPS URLs are supported", 0) := by
  constructor
  · intro e h
    simp [fetchUrlContent, h]
  · intro u h h1 h2
    simp [fetchUrlContent, h, h1, h2]

/-- C3 witness: the crate's own test inputs — `"not-a-url"` is rejected as an
invalid URL and `"ftp://example.com"` for its scheme, both with zero
transport invocations. -/
theorem claim_c3_witness :
    fetchUrlContent netHello "not-a-url"
      = (Except.error "Invalid URL: relative URL without a base", 0)
    ∧ fetchUrlContent netHello "ftp://example.com"
      = (Except.error "Only HTTP and HTTPS URLs are supported", 0) :=
  ⟨(claim_c3 "not-a-url" netHello).1 "relative URL without a base" (by decide),
   (claim_c3 "ftp://example.com" netHello).2 ⟨"ftp", "//example.com"⟩
     (by decide) (by decide) (by decide)⟩

/-- C4: the cache key is the lowercase hex encoding of the SHA-256 digest of
namespace bytes, a NUL separator, URL bytes, a NUL separator, and the textual
representation of the encoding variant; equal inputs give an equal key; and
every successful store call returns a path that uses that key verbatim as the
filename under the cache root. -/
theorem claim_c4 (ns urlStr : String) (kind : CompressKind)
    (net : ParsedUrl → Except String Bytes) (pkg : Option String)
    (wr : WriteOutcome) (outDir : String) (st : CacheState) (p : String) :
    cacheFileName ns urlStr kind
      = hexOfBytes (sha256 (cacheKeyInput (strBytes ns) (strBytes urlStr) kind))
    ∧ (∀ (ns' url' : String) (kind' : CompressKind),
        ns = ns' → urlStr = url' → kind = kind' →
        cacheFileName ns urlStr kind = cacheFileName ns' url' kind')
    ∧ ((cachedUrlContent net pkg wr outDir urlStr kind st).1 = Except.ok p →
        p = outDir ++ "/" ++ cacheFileName (resolveCrateName pkg) urlStr kind) := by
  refine ⟨?_, ?_, ?_⟩
  · simp [cacheFileName, Hasher.new, Hasher.update, Hasher.finalize,
      cacheKeyInput, List.append_assoc]
  · intro ns' url' kind' h1 h2 h3
    rw [h1, h2, h3]
  · exact cached_ok_path net pkg wr outDir urlStr kind st p

/-- C4 witness: the key equation, determinism and the verbatim-filename path
at a concrete successful call. -/
theorem claim_c4_witness :
    cacheFileName "pkg" "http://e/x" CompressKind.None
      = hexOfBytes (sha256 (cacheKeyInput (strBytes "pkg") (strBytes "http://e/x")
          CompressKind.None))
    ∧ cacheFileName "pkg" "http://e/x" CompressKind.None
      = cacheFileName "pkg" "http://e/x" CompressKind.None
    ∧ "out/" ++ cacheFileName "pkg" "http://e/x" CompressKind.None
      = "out" ++ "/" ++ cacheFileName (resolveCrateName (Option.some "pkg"))
          "http://e/x" CompressKind.None :=
  ⟨(claim_c4 "pkg" "http://e/x" CompressKind.None netHello (Option.some "pkg")
      WriteOutcome.success "out" (CacheState.mk [])
      ("out/" ++ cacheFileName "pkg" "http://e/x" CompressKind.None)).1,
   (claim_c4 "pkg" "http://e/x" CompressKind.None netHello (Option.some "pkg")
      WriteOutcome.success "out" (CacheState.mk [])
      ("out/" ++ cacheFileName "pkg" "http://e/x" CompressKind.None)).2.1
     "pkg" "http://e/x" CompressKind.None rfl rfl rfl,
   (claim_c4 "pkg" "http://e/x" CompressKind.None netHello (Option.some "pkg")
      WriteOutcome.success "out" (CacheState.mk [])
      ("out/" ++ cacheFileName "pkg" "http://e/x" CompressKind.None)).2.2
     (by decide)⟩

/-- C5: the byte sequences fed to the hash differ between encoding `None` and
`Brotli` for every fixed `(namespace, url)`, and between any two distinct
namespaces for fixed `(url, encoding)`; on concrete inputs the resulting hex
cache keys are distinct as well. -/
theorem claim_c5 :
    (∀ nsB urlB : Bytes,
        cacheKeyInput nsB urlB CompressKind.None
          ≠ cacheKeyInput nsB urlB CompressKind.Brotli)
    ∧ (∀ (nsB1 nsB2 urlB : Bytes) (kind : CompressKind), nsB1 ≠ nsB2 →
        cacheKeyInput nsB1 urlB kind ≠ cacheKeyInput nsB2 urlB kind)
    ∧ cacheFileName "pkg" "http://example.com/data" CompressKind.None
        ≠ cacheFileName "pkg" "http://example.com/data" CompressKind.Brotli
    ∧ cacheFileName "alpha" "http://example.com/data" CompressKind.None
        ≠ cacheFileName "beta" "http://example.com/data" CompressKind.None := by
  refine ⟨?_, ?_, by decide, by decide⟩
  · intro nsB urlB h
    simp only [cacheKeyInput, List.append_assoc] at h
    have h1 := List.append_cancel_left h
    have h2 := List.append_cancel_left (List.cons.inj h1).2
    exact absurd (List.append_cancel_left h2) (by decide)
  · intro nsB1 nsB2 urlB kind hne h
    simp only [cacheKeyInput, List.append_assoc] at h
    exact hne (List.append_cancel_right h)

/-- C5 witness: two byte-level namespaces differing in one byte feed distinct
hash inputs. -/
theorem claim_c5_witness :
    cacheKeyInput [0] [1] CompressKind.None ≠ cacheKeyInput [2] [1] CompressKind.None :=
  claim_c5.2.1 [0] [2] [1] CompressKind.None (by decide)

/-- C6: the consumer-side decode losslessly inverts the (modelled) Brotli
encode applied by `cached_url_content` before persisting, for every byte
sequence including the empty and non-UTF-8 ones. -/
theorem claim_c6 (b : Bytes) :
    rleDecode (rleEncode b) = b
    ∧ encodeContent CompressKind.Brotli b = rleEncode b :=
  ⟨rle_roundtrip b, rfl⟩

/-- C7: with encoding `None`, the bytes persisted for the key are exactly the
raw fetched response bytes — no transformation, header or metadata. -/
theorem claim_c7 (net : ParsedUrl → Except String Bytes) (pkg : Option String)
    (outDir urlStr : String) (st : CacheState) (b : Bytes) (n : Nat)
    (hmiss : st.lookup (cacheFileName (resolveCrateName pkg) urlStr CompressKind.None)
      = Option.none)
    (hf : fetchUrlContent net urlStr = (Except.ok b, n)) :
    cachedUrlContent net pkg WriteOutcome.success outDir urlStr CompressKind.None st
      = (Except.ok
          (outDir ++ "/" ++ cacheFileName (resolveCrateName pkg) urlStr CompressKind.None),
         st.set (cacheFileName (resolveCrateName pkg) urlStr CompressKind.None) b, n)
    ∧ ((cachedUrlContent net pkg WriteOutcome.success outDir urlStr
          CompressKind.None st).2.1).lookup
        (cacheFileName (resolveCrateName pkg) urlStr CompressKind.None)
      = Option.some b := by
  have hm : ¬ (st.lookup
      (cacheFileName (resolveCrateName pkg) urlStr CompressKind.None)).isSome := by
    simp [hmiss]
  have h1 := cached_miss_success net pkg outDir urlStr CompressKind.None st b n hm hf
  rw [show encodeContent CompressKind.None b = b from rfl] at h1
  refine ⟨h1, ?_⟩
  rw [h1]
  exact lookup_set_self st _ b

/-- C7 witness: a concrete miss persists the fetched `"hi"` bytes verbatim. -/
theorem claim_c7_witness :
    cachedUrlContent netHello (Option.some "pkg") WriteOutcome.success "out"
        "http://e/x" CompressKind.None (CacheState.mk [])
      = (Except.ok ("out" ++ "/" ++ cacheFileName (resolveCrateName (Option.some "pkg"))
          "http://e/x" CompressKind.None),
         (CacheState.mk []).set (cacheFileName (resolveCrateName (Option.some "pkg"))
           "http://e/x" CompressKind.None) [104, 105], 1)
    ∧ ((cachedUrlContent netHello (Option.some "pkg") WriteOutcome.success "out"
          "http://e/x" CompressKind.None (CacheState.mk [])).2.1).lookup
        (cacheFileName (resolveCrateName (Option.some "pkg")) "http://e/x"
          CompressKind.None)
      = Option.some [104, 105] :=
  claim_c7 netHello (Option.some "pkg") "out" "http://e/x" (CacheState.mk [])
    [104, 105] 1 (by decide) (by decide)

/-- C8: for cached content that decodes as text, a failed generic JSON parse
yields the invalid-JSON compile error (no typed emission of any kind), and a
successful one emits the raw textual content verbatim — with the typed parse
left to be re-performed downstream against the target shape. -/
theorem claim_c8 (bytes : Bytes) (content : List Nat) (t : String)
    (hdec : utf8Decode bytes = Option.some content) :
    (jsonValid content = false →
        includeJsonFromCache bytes (Option.some t)
            = MacroOutput.compileError invalidJsonMsg
        ∧ includeJsonFromCache bytes Option.none
            = MacroOutput.compileError invalidJsonMsg)
    ∧ (jsonValid content = true →
        includeJsonFromCache bytes (Option.some t) = MacroOutput.emitTyped content t
        ∧ includeJsonFromCache bytes Option.none = MacroOutput.emitValue content) := by
  constructor
  · intro hv
    exact ⟨by simp [includeJsonFromCache, hdec, hv], by simp [includeJsonFromCache, hdec, hv]⟩
  · intro hv
    exact ⟨by simp [includeJsonFromCache, hdec, hv], by simp [includeJsonFromCache, hdec, hv]⟩

/-- C8 witness: the empty JSON object is accepted and handed on as raw text;
`"not json"` is rejected with the validation error. -/
theorem claim_c8_witness :
    includeJsonFromCache [123, 125] (Option.some "Post")
      = MacroOutput.emitTyped [123, 125] "Post"
    ∧ includeJsonFromCache (strBytes "not json") Option.none
      = MacroOutput.compileError invalidJsonMsg :=
  ⟨((claim_c8 [123, 125] [123, 125] "Post" (by decide)).2 (by decide)).1,
   ((claim_c8 (strBytes "not json") (strBytes "not json") "Post"
      (by decide)).1 (by decide)).2⟩

/-- C9: a missing `CARGO_PKG_NAME` resolves to the literal namespace
`"unknown"`, so any two build units that both lack a package name derive the
same cache key for the same `(url, encoding)`. -/
theorem claim_c9 :
    resolveCrateName Option.none = "unknown"
    ∧ ∀ (e1 e2 : Option String) (urlStr : String) (kind : CompressKind),
        e1 = Option.none → e2 = Option.none →
        cacheFileName (resolveCrateName e1) urlStr kind
          = cacheFileName (resolveCrateName e2) urlStr kind := by
  refine ⟨rfl, ?_⟩
  intro e1 e2 urlStr kind h1 h2
  rw [h1, h2]

/-- C9 witness: two nameless build units share one key for a concrete URL. -/
theorem claim_c9_witness :
    cacheFileName (resolveCrateName Option.none) "http://e/x" CompressKind.None
      = cacheFileName (resolveCrateName Option.none) "http://e/x" CompressKind.None :=
  claim_c9.2 Option.none Option.none "http://e/x" CompressKind.None rfl rfl

/-- C10: cache content that is not valid UTF-8 makes the structured call site
fail with the file-read error (the `Failed to open cache file` message), not
with the JSON validation error — the generic JSON check never sees such
content. -/
theorem claim_c10 (bytes : Bytes) (ty : Option String)
    (hdec : utf8Decode bytes = Option.none) :
    includeJsonFromCache bytes ty = MacroOutput.compileError utf8FailMsg
    ∧ includeJsonFromCache bytes ty ≠ MacroOutput.compileError invalidJsonMsg := by
  refine ⟨by simp [includeJsonFromCache, hdec], ?_⟩
  simp only [includeJsonFromCache, hdec]
  intro h
  exact absurd (MacroOutput.compileError.inj h) (by decide)

/-- C10 witness: the lone byte `0xFF` is not UTF-8 and yields the read
error. -/
theorem claim_c10_witness :
    includeJsonFromCache [255] (Option.some "Post")
      = MacroOutput.compileError utf8FailMsg
    ∧ includeJsonFromCache [255] (Option.some "Post")
      ≠ MacroOutput.compileError invalidJsonMsg :=
  claim_c10 [255] (Option.some "Post") (by decide)

end IncludeUrl
